import Mathlib

/-!
Verification of the torn-war-bot refresh-and-alert engine.

This file shallowly embeds the Python source of the repository
(`src/app.py`, `src/torn_api.py`, `src/worker_bot.py`) into Lean 4 and
proves or refutes the frozen behavioural claims about it.

JSON-ish Python values are modelled by the inductive type `Py`;
Python truthiness, `dict.get`, `str()`, `x or y`, string `strip`,
substring tests, `str.split(sep)[0]` and `int()` are modelled by small
executable helpers that mirror CPython semantics on the value shapes
the embedded code ever sees (ASCII text, ints, bools, lists, dicts).
-/

/-- A Python/JSON value as it appears in the payloads the bot handles. -/
inductive Py where
  | none : Py
  | bool : Bool → Py
  | int : Int → Py
  | str : String → Py
  | list : List Py → Py
  | dict : List (String × Py) → Py

/-- Python truthiness (`bool(x)`): `None`, `False`, `0`, `""`, `[]`, `{}`
are falsy, everything else truthy. -/
def truthy : Py → Bool
  | Py.none => false
  | Py.bool b => b
  | Py.int n => decide (n ≠ 0)
  | Py.str s => decide (s ≠ "")
  | Py.list l => !l.isEmpty
  | Py.dict kvs => !kvs.isEmpty

/-- `x or y` in Python: `x` when truthy, else `y`. -/
def truthyOr (a b : Py) : Py := if truthy a then a else b

/-- `d.get(k)` for a dict `d` (default `None`).  Python raises
`AttributeError` when `.get` is called on a non-dict; the embedded call
sites are either `isinstance`-guarded in the source or restricted by
the well-formedness hypotheses of the theorems below, so the non-dict
case is mapped to `None` here. -/
def getItem (d : Py) (k : String) : Py :=
  match d with
  | Py.dict kvs =>
    match kvs.find? (fun kv => kv.1 = k) with
    | some kv => kv.2
    | Option.none => Py.none
  | _ => Py.none

/-- `d.get(k, default)` for a dict `d`. -/
def getItemD (d : Py) (k : String) (dflt : Py) : Py :=
  match d with
  | Py.dict kvs =>
    match kvs.find? (fun kv => kv.1 = k) with
    | some kv => kv.2
    | Option.none => dflt
  | _ => dflt

/-- `isinstance(x, dict)`. -/
def Py.isDict : Py → Bool
  | Py.dict _ => true
  | _ => false

/-- `x is None`. -/
def Py.isNone : Py → Bool
  | Py.none => true
  | _ => false

/-- `str(x)` for the scalar values the embedded code stringifies.
Containers are never passed to `str()` on the paths exercised by the
claims; they are given fixed markers. -/
def pyStr : Py → String
  | Py.none => "None"
  | Py.bool b => if b then "True" else "False"
  | Py.int n => toString n
  | Py.str s => s
  | Py.list _ => "[list]"
  | Py.dict _ => "[dict]"

/-- Whitespace characters removed by Python's `str.strip()`. -/
def isPySpace (c : Char) : Bool :=
  c = ' ' || c = '\t' || c = '\n' || c = '\x0d' || c = '\x0b' || c = '\x0c'

/-- `str.strip()` on a character list. -/
def stripChars (l : List Char) : List Char :=
  ((l.dropWhile isPySpace).reverse.dropWhile isPySpace).reverse

/-- `str.strip()` on a `String`. -/
def pyStrip (s : String) : String := String.mk (stripChars s.data)

/-- Python's `pat in s` substring test on character lists. -/
def containsSub (pat : List Char) : List Char → Bool
  | [] => decide (pat = [])
  | c :: t => pat.isPrefixOf (c :: t) || containsSub pat t

/-- `s.split(pat)[0]`: the part of `s` before the first occurrence of
the (non-empty) separator `pat`; the whole of `s` when `pat` does not
occur. -/
def splitBefore (pat : List Char) : List Char → List Char
  | [] => []
  | c :: t => if pat.isPrefixOf (c :: t) then [] else c :: splitBefore pat t

/-- Value of a list of decimal digit characters. -/
def digitsVal (l : List Char) : Nat :=
  l.foldl (fun a c => 10 * a + (c.toNat - 48)) 0

/-- A non-empty all-digit character list, as accepted by `int()` after
the optional sign. -/
def digitsOpt (l : List Char) : Option Nat :=
  if l ≠ [] ∧ l.all Char.isDigit then some (digitsVal l) else Option.none

/-- Python `int(s)` on an already-stripped ASCII string: optional sign
followed by one or more digits, else failure. -/
def pyIntCore : List Char → Option Int
  | [] => Option.none
  | c :: t =>
    if c = '+' then
      match digitsOpt t with
      | some n => some (Int.ofNat n)
      | Option.none => Option.none
    else if c = '-' then
      match digitsOpt t with
      | some n => some (-(Int.ofNat n))
      | Option.none => Option.none
    else
      match digitsOpt (c :: t) with
      | some n => some (Int.ofNat n)
      | Option.none => Option.none

/-! ## `src/app.py`: status bucketing and relative-time parsing -/

/-- `classify_status` (src/app.py lines 65-70). -/
def classify_status (minutes : Int) : String :=
  if minutes ≤ 20 then "online"
  else if minutes ≤ 30 then "idle"
  else "offline"

/-- The pattern `"just now"` as characters. -/
def justNowPat : List Char := "just now".data

/-- The pattern `"minute"` as characters. -/
def minutePat : List Char := "minute".data

/-- The pattern `"hour"` as characters. -/
def hourPat : List Char := "hour".data

/-- The pattern `"day"` as characters. -/
def dayPat : List Char := "day".data

/-- The body of `parse_last_action_minutes` (src/app.py lines 76-89)
applied to the relative-time text: lowercase, then substring-dispatch
on `"just now"` / `"minute"` / `"hour"` / `"day"`, converting the text
before the first unit occurrence with `int(... .strip())`; any `int()`
failure or unrecognized text yields the sentinel `999`. -/
def parse_rel_minutes (relRaw : List Char) : Int :=
  let rel := relRaw.map Char.toLower
  if containsSub justNowPat rel then 0
  else if containsSub minutePat rel then
    match pyIntCore (stripChars (splitBefore minutePat rel)) with
    | some n => n
    | Option.none => 999
  else if containsSub hourPat rel then
    match pyIntCore (stripChars (splitBefore hourPat rel)) with
    | some h => h * 60
    | Option.none => 999
  else if containsSub dayPat rel then
    match pyIntCore (stripChars (splitBefore dayPat rel)) with
    | some d => d * 1440
    | Option.none => 999
  else 999

/-- `parse_last_action_minutes` (src/app.py lines 73-89) on a member
dict: `rel = ((member.get("last_action") or {}).get("relative") or
"").lower()`.  A truthy non-string `relative` would raise in Python
(`.lower()` on a non-str); such members are excluded by `memberWF`
below, and are mapped to the empty string here. -/
def parse_last_action_minutes (m : Py) : Int :=
  let la := truthyOr (getItem m "last_action") (Py.dict [])
  let rel :=
    match getItem la "relative" with
    | Py.str s => s.data
    | _ => []
  parse_rel_minutes rel

/-! ## `src/app.py`: `normalize_faction_rows` and the availability merge -/

/-- The persisted availability map read by `get_availability_map()`:
external ID → opted-in flag (values are the booleans stored by
`upsert_availability`). -/
abbrev AvailMap := List (String × Bool)

/-- `avail_map.get(torn_id, False)` (bool values, so `bool(...)` is the
identity). -/
def availLookup (m : AvailMap) (tornId : String) : Bool :=
  match m.find? (fun kv => kv.1 = tornId) with
  | some kv => kv.2
  | Option.none => false

/-- One row of the normalized member list (the dict appended at
src/app.py lines 181-189). -/
structure Row where
  id : String
  name : Py
  minutes : Int
  status : String
  hospital : Bool
  hospital_until : Py
  available : Bool

/-- The per-bucket counters (src/app.py line 148). -/
structure Counts where
  online : Nat
  idle : Nat
  offline : Nat
  hospital : Nat
deriving DecidableEq

/-- All-zero counters. -/
def initCounts : Counts := ⟨0, 0, 0, 0⟩

/-- `counts[status] += 1` for a status produced by `classify_status`. -/
def bumpStatus (c : Counts) (s : String) : Counts :=
  if s = "online" then { c with online := c.online + 1 }
  else if s = "idle" then { c with idle := c.idle + 1 }
  else { c with offline := c.offline + 1 }

/-- The faction header (src/app.py line 191). -/
structure Header where
  name : Py
  tag : Py
  respect : Py

/-- The chain summary (src/app.py lines 192-197). -/
structure ChainOut where
  current : Py
  max : Py
  timeout : Py
  cooldown : Py

/-- `torn_id = str(m.get("id") or mid).strip() or str(mid).strip()`
(src/app.py line 162). -/
def tornIdOfMember (mid : String) (m : Py) : String :=
  let s1 := pyStrip (pyStr (truthyOr (getItem m "id") (Py.str mid)))
  if s1 = "" then pyStrip mid else s1

/-- `bool(st.get("state") == "Hospital" or m.get("hospital"))`
(src/app.py line 169), with `st = m.get("status") or {}`. -/
def hospOfMember (m : Py) : Bool :=
  let st := truthyOr (getItem m "status") (Py.dict [])
  (match getItem st "state" with
   | Py.str s => s = "Hospital"
   | _ => false) || truthy (getItem m "hospital")

/-- The row built for one member (src/app.py lines 162-189). -/
def mkRow (availMap : AvailMap) (mid : String) (m : Py) : Row :=
  let torn_id := tornIdOfMember mid m
  let minutes := parse_last_action_minutes m
  let st := truthyOr (getItem m "status") (Py.dict [])
  { id := torn_id
    name := truthyOr (getItem m "name") (Py.str "—")
    minutes := minutes
    status := classify_status minutes
    hospital := hospOfMember m
    hospital_until := truthyOr (getItem st "until") (getItem m "hospital_until")
    available := availLookup availMap torn_id }

/-- The member loop of `normalize_faction_rows` (src/app.py lines
158-189), processing the `(mid, m)` item list in order and skipping
non-dict members; returns (rows, counts, available_count). -/
def rowsLoop (availMap : AvailMap) : List (String × Py) → List Row × Counts × Nat
  | [] => ([], initCounts, 0)
  | (mid, m) :: rest =>
    if m.isDict then
      let row := mkRow availMap mid m
      let r := rowsLoop availMap rest
      let counts' :=
        if row.hospital then { r.2.1 with hospital := r.2.1.hospital + 1 }
        else bumpStatus r.2.1 row.status
      (row :: r.1, counts', r.2.2 + (if row.available then 1 else 0))
    else rowsLoop availMap rest

/-- The `(mid, m)` item list derived from the raw `members` field
(src/app.py lines 151-156): a keyed map yields its items, an array
yields `(str(m.get("id") or ""), m)` for its dict entries, anything
else yields nothing. -/
def memberItems : Py → List (String × Py)
  | Py.dict kvs => kvs
  | Py.list ms =>
    ms.filterMap (fun m =>
      if m.isDict then some (pyStr (truthyOr (getItem m "id") (Py.str "")), m)
      else Option.none)
  | _ => []

/-- The result tuple of `normalize_faction_rows`. -/
structure NormOut where
  rows : List Row
  counts : Counts
  available_count : Nat
  header : Header
  chain : ChainOut

/-- `normalize_faction_rows` (src/app.py lines 139-199). -/
def normalize_faction_rows (v2 : Py) (availMap : AvailMap) : NormOut :=
  let basic := truthyOr (getItem v2 "basic") (Py.dict [])
  let members := truthyOr (getItem v2 "members") (Py.dict [])
  let chain := truthyOr (getItem v2 "chain") (Py.dict [])
  let r := rowsLoop availMap (memberItems members)
  { rows := r.1
    counts := r.2.1
    available_count := r.2.2
    header :=
      { name := getItem basic "name"
        tag := getItem basic "tag"
        respect := getItem basic "respect" }
    chain :=
      { current := truthyOr (getItem chain "current") (Py.int 0)
        max := truthyOr (getItem chain "max") (Py.int 10)
        timeout := truthyOr (getItem chain "timeout") (Py.int 0)
        cooldown := truthyOr (getItem chain "cooldown") (Py.int 0) } }

/-- A member dict on which the Python loop body cannot raise:
`last_action` and `status` are dicts (or falsy, replaced by `{}`), and
`last_action.relative` is a string (or falsy, replaced by `""`). -/
def memberWF (m : Py) : Bool :=
  (truthyOr (getItem m "last_action") (Py.dict [])).isDict &&
  (match getItem (truthyOr (getItem m "last_action") (Py.dict [])) "relative" with
   | Py.str _ => true
   | r => !truthy r) &&
  (truthyOr (getItem m "status") (Py.dict [])).isDict

/-- A payload on which `normalize_faction_rows` cannot raise in
Python: `basic` and `chain` are dicts (or falsy) and every member
entry is `memberWF`. -/
def payloadWF (v2 : Py) : Bool :=
  (truthyOr (getItem v2 "basic") (Py.dict [])).isDict &&
  (truthyOr (getItem v2 "chain") (Py.dict [])).isDict &&
  (memberItems (truthyOr (getItem v2 "members") (Py.dict []))).all
    (fun item => !item.2.isDict || memberWF item.2)

/-! ## `src/app.py`: the availability-update endpoint -/

/-- `is_chain_sitter` (src/app.py lines 92-93): membership of the ID
in the configured `CHAIN_SITTER_IDS` set. -/
def is_chain_sitter (chainSitterIds : List String) (tornId : String) : Bool :=
  chainSitterIds.contains tornId

/-- `token_ok` (src/app.py lines 96-107): accept when no token is
configured, else compare the first truthy of the supplied token
sources (two headers, the query arg, the JSON body field), stripped,
against the configured token. -/
def token_ok (availToken : String) (sources : List Py) : Bool :=
  if availToken = "" then true
  else
    pyStrip (pyStr ((sources.foldr (fun a b => truthyOr a b) (Py.str "")))) =
      availToken

/-- Modelled from the spec: `upsert_availability` (imported in
src/app.py from a web-service `db` module that is not present under
`src/`; the `db.py` in `src/` belongs to the Discord worker).  Per the
spec's `AvailabilityRecord` lifecycle it creates or updates the record
keyed by the external ID, storing the submitted `available` flag. -/
def upsert_availability (tornId : String) (avail : Bool) (store : AvailMap) :
    AvailMap :=
  if store.any (fun kv => kv.1 = tornId) then
    store.map (fun kv => if kv.1 = tornId then (kv.1, avail) else kv)
  else store ++ [(tornId, avail)]

/-- The outcome of a POST to `/api/availability`. -/
inductive ApiResult where
  | unauthorized
  | missingId
  | notChainSitter
  | accepted (id : String) (available : Bool)
deriving DecidableEq

/-- `torn_id = str(data.get("torn_id") or data.get("id") or "").strip()`
(src/app.py line 824). -/
def tornIdOfReq (data : Py) : String :=
  pyStrip (pyStr (truthyOr (getItem data "torn_id")
    (truthyOr (getItem data "id") (Py.str ""))))

/-- `available = bool(data.get("available", False))` (src/app.py line 825). -/
def availOfReq (data : Py) : Bool :=
  truthy (getItemD data "available" (Py.bool false))

/-- `api_availability` (src/app.py lines 817-839): token check, then
ID presence, then — only when the allow-list is non-empty — the
chain-sitter check, then persist via `upsert_availability`.  `tokOk`
is the value of `token_ok(request)`. -/
def api_availability (chainSitterIds : List String) (tokOk : Bool)
    (data : Py) (store : AvailMap) : ApiResult × AvailMap :=
  if !tokOk then (ApiResult.unauthorized, store)
  else
    let torn_id := tornIdOfReq data
    let avail := availOfReq data
    if torn_id = "" then (ApiResult.missingId, store)
    else if !chainSitterIds.isEmpty &&
        !is_chain_sitter chainSitterIds torn_id then
      (ApiResult.notChainSitter, store)
    else (ApiResult.accepted torn_id avail,
      upsert_availability torn_id avail store)

/-! ## `src/torn_api.py`: ranked-war normalization -/

/-- `_pick` (src/torn_api.py lines 37-41): the first key of `keys`
present in the dict with a non-`None` value; `None` otherwise (also
when `d` is not a dict). -/
def pick (d : Py) (keys : List String) : Py :=
  match keys with
  | [] => Py.none
  | k :: rest =>
    match d with
    | Py.dict kvs =>
      match kvs.find? (fun kv => kv.1 = k) with
      | some kv =>
        match kv.2 with
        | Py.none => pick d rest
        | v => v
      | Option.none => pick d rest
    | _ => Py.none

/-- `_to_int` (src/torn_api.py lines 28-34): Python `int(x)` with a
default on `None` or failure. -/
def to_int (x : Py) (default : Option Int) : Option Int :=
  match x with
  | Py.none => default
  | Py.bool b => some (if b then 1 else 0)
  | Py.int n => some n
  | Py.str s =>
    match pyIntCore (stripChars s.data) with
    | some n => some n
    | Option.none => default
  | _ => default

/-- `_extract_score` (src/torn_api.py lines 44-79). -/
def extract_score (obj : Py) : Option Int × Option Int :=
  if !obj.isDict then (Option.none, Option.none)
  else
    let our0 := pick obj ["score", "points", "our_score", "faction_score"]
    let enemy0 := pick obj ["enemy_score", "opponent_score", "their_score"]
    let factions := getItem obj "factions"
    let dictVals :=
      match factions with
      | Py.dict kvs => (kvs.map (fun kv : String × Py => kv.2)).filter Py.isDict
      | _ => []
    let our1 :=
      if our0.isNone && decide (2 ≤ dictVals.length) then
        pick (dictVals.headD Py.none) ["score", "points"]
      else our0
    let enemy1 :=
      if enemy0.isNone && decide (2 ≤ dictVals.length) then
        pick ((dictVals.drop 1).headD Py.none) ["score", "points"]
      else enemy0
    let listVals :=
      match factions with
      | Py.list vs => vs.filter Py.isDict
      | _ => []
    let our2 :=
      if our1.isNone && decide (2 ≤ listVals.length) then
        pick (listVals.headD Py.none) ["score", "points"]
      else our1
    let enemy2 :=
      if enemy1.isNone && decide (2 ≤ listVals.length) then
        pick ((listVals.drop 1).headD Py.none) ["score", "points"]
      else enemy1
    (to_int our2 Option.none, to_int enemy2 Option.none)

/-- `_extract_time` (src/torn_api.py lines 82-88): the picked value
unless it is `None` or a dict. -/
def extract_time (obj : Py) (keys : List String) : Py :=
  if !obj.isDict then Py.none
  else
    let v := pick obj keys
    if v.isDict then Py.none else v

/-- The chain sub-dict of `_extract_chain` (src/torn_api.py lines 91-102). -/
structure ChainPick where
  current : Py
  max : Py
  timeout : Py
  cooldown : Py

/-- `_extract_chain` (src/torn_api.py lines 91-102): `none` models the
`{}` returned when `obj.chain` is not a dict. -/
def extract_chain (obj : Py) : Option ChainPick :=
  if !obj.isDict then Option.none
  else
    match getItem obj "chain" with
    | Py.dict kvs =>
      let c := Py.dict kvs
      some { current := getItem c "current", max := getItem c "max",
             timeout := getItem c "timeout", cooldown := getItem c "cooldown" }
    | _ => Option.none

/-- An entry of a ranked-wars list counts as "unended" when neither
`end` nor `ended` nor `end_time` is truthy (src/torn_api.py lines 121-124). -/
def isUnendedDict (item : Py) : Bool :=
  item.isDict &&
  !(truthy (getItem item "end") || truthy (getItem item "ended") ||
    truthy (getItem item "end_time"))

/-- `_find_active_war_blob` (src/torn_api.py lines 105-132). -/
def find_active_war_blob (raw : Py) : Py :=
  if !raw.isDict then Py.none
  else
    let rw := getItem raw "rankedwars"
    if rw.isDict then rw
    else
      match rw with
      | Py.list (i0 :: rest) =>
        match (i0 :: rest).find? isUnendedDict with
        | some item => item
        | Option.none => i0
      | _ =>
        let w := getItem raw "war"
        if w.isDict then w else raw

/-- The first faction entry carrying a truthy `name`/`tag`
(src/torn_api.py lines 152-165). -/
def firstNameIn : List Py → Py
  | [] => Py.none
  | v :: rest =>
    if v.isDict && truthy (pick v ["name", "tag"]) then pick v ["name", "tag"]
    else firstNameIn rest

/-- `_extract_opponent_name` (src/torn_api.py lines 135-167).  Note
that the faction-collection fallback returns the FIRST entry carrying
a name, without eliminating our own faction's ID. -/
def extract_opponent_name (blob : Py) : Py :=
  if !blob.isDict then Py.none
  else
    let opp := pick blob ["opponent", "enemy"]
    if opp.isDict then pick opp ["name", "tag"]
    else
      match opp with
      | Py.str s => Py.str s
      | _ =>
        match pick blob ["opponent_name", "enemy_name"] with
        | Py.str s => Py.str s
        | _ =>
          match getItem blob "factions" with
          | Py.dict kvs => firstNameIn (kvs.map (fun kv => kv.2))
          | Py.list vs => firstNameIn vs
          | _ => Py.none

/-- `_extract_opponent_id_from_factions` (src/torn_api.py lines
170-221). -/
def extract_opponent_id_from_factions (blob : Py) (ourFactionId : String) :
    Py :=
  if !blob.isDict then Py.none
  else
    let direct := pick blob ["opponent_id", "enemy_id", "their_faction_id"]
    match direct with
    | Py.none =>
      (match getItem blob "factions" with
       | Py.dict kvs =>
         let keys := kvs.map (fun kv => kv.1)
         match keys with
         | [] => Py.none
         | k0 :: _ =>
           if ourFactionId ≠ "" ∧ ourFactionId ∈ keys then
             match keys.find? (fun k => k ≠ ourFactionId) with
             | some k => Py.str k
             | Option.none => Py.str k0
           else Py.str k0
       | Py.list fs =>
         let ids := fs.filterMap (fun f =>
           if f.isDict then
             match pick f ["id", "faction_id"] with
             | Py.none => Option.none
             | v => some (pyStr v)
           else Option.none)
         match ids with
         | [] => Py.none
         | i0 :: _ =>
           if ourFactionId ≠ "" ∧ ourFactionId ∈ ids then
             match ids.find? (fun i => i ≠ ourFactionId) with
             | some i => Py.str i
             | Option.none => Py.str i0
           else Py.str i0
       | _ => Py.none)
    | d => Py.str (pyStr d)

/-- The dict returned by `_normalize_ranked_war` (src/torn_api.py
lines 263-272). -/
structure WarNorm where
  opponent : Py
  opponent_id : Py
  start : Py
  «end» : Py
  target : Option Int
  score : Option Int
  enemy_score : Option Int
  chain : Option ChainPick

/-- The all-`None` war dict (`{}` after `war.get(...)` in the caller). -/
def emptyWarNorm : WarNorm :=
  { opponent := Py.none, opponent_id := Py.none, start := Py.none,
    «end» := Py.none, target := Option.none, score := Option.none,
    enemy_score := Option.none, chain := Option.none }

/-- `_normalize_ranked_war` (src/torn_api.py lines 248-272). -/
def normalize_ranked_war (raw : Py) (ourFactionId : String) : WarNorm :=
  let blob := find_active_war_blob raw
  if !blob.isDict then emptyWarNorm
  else
    { opponent := extract_opponent_name blob
      opponent_id := extract_opponent_id_from_factions blob ourFactionId
      start := extract_time blob
        ["start", "started", "start_time", "begin", "timestamp_start"]
      «end» := extract_time blob
        ["end", "ended", "end_time", "finish", "timestamp_end"]
      target := to_int
        (pick blob ["target", "target_score", "goal", "required",
          "takeout_target"]) Option.none
      score := (extract_score blob).1
      enemy_score := (extract_score blob).2
      chain := extract_chain blob }

/-! ## `src/worker_bot.py`: the availability-ping cooldown -/

/-- The alert-evaluation tail of `refresh_loop` (src/worker_bot.py
lines 310-323), as a step on `bot.last_pinged_at_utc`.  Inputs: the
config, whether the alert channel was found, whether `ch.send`
succeeds, the computed `available_count`, the current time and the
stored last-fired time.  Output: whether a dispatch was attempted, and
the new stored time (set only after a successful send; a failed send
is caught and logged). -/
def ping_step (disablePosts : Bool) (pingThreshold : Int) (cooldown : Int)
    (alertChannelId alertRoleId : Int) (channelFound sendOk : Bool)
    (availableCount : Int) (now : Int) (lastPingedAt : Option Int) :
    Bool × Option Int :=
  if disablePosts then (false, lastPingedAt)
  else if pingThreshold ≤ availableCount ∧ alertChannelId ≠ 0 ∧
      alertRoleId ≠ 0 then
    let canPing :=
      match lastPingedAt with
      | Option.none => true
      | some t => cooldown ≤ now - t
    if canPing then
      if channelFound then
        if sendOk then (true, some now) else (true, lastPingedAt)
      else (false, lastPingedAt)
    else (false, lastPingedAt)
  else (false, lastPingedAt)

/-! ## `src/app.py`: `poll_once` / `poll_loop` -/

/-- The `STATE["war"]` sub-dict written at src/app.py lines 930-938. -/
structure WarSnapshot where
  opponent : Py
  opponent_id : Py
  start : Py
  «end» : Py
  target : Option Int
  score : Option Int
  enemy_score : Option Int

/-- The `STATE["enemy"]` sub-dict (src/app.py lines 944-971). -/
structure EnemyState where
  supported : Bool
  reason : Option String
  factionName : Py
  factionTag : Py
  factionRespect : Py
  factionId : Option String
  rows : List Row
  counts : Counts
  updated_at : Option Nat

/-- The fields of the module-level `STATE` dict (src/app.py lines
30-48) touched by the poll cycle.  Timestamps (`now_iso()` strings)
are modelled as naturals; `last_error` holds the recorded cause. -/
structure AppState where
  rows : List Row
  counts : Counts
  available_count : Nat
  faction : Header
  chain : ChainOut
  war : WarSnapshot
  enemy : EnemyState
  med_deals : List Nat
  updated_at : Option Nat
  last_error : Option String

/-- The projection of a normalized war dict stored into `STATE["war"]`. -/
def warSnapOf (w : WarNorm) : WarSnapshot :=
  { opponent := w.opponent, opponent_id := w.opponent_id,
    start := w.start, «end» := w.«end», target := w.target,
    score := w.score, enemy_score := w.enemy_score }

/-- The enemy state recorded when the enemy fetch returned an error
payload (src/app.py lines 944-951). -/
def enemyErrState (oppId : String) (now : Nat) : EnemyState :=
  { supported := true, reason := some "Enemy fetch error",
    factionName := Py.none, factionTag := Py.none, factionRespect := Py.none,
    factionId := some oppId, rows := [], counts := initCounts,
    updated_at := some now }

/-- The enemy state recorded when there is no opponent ID
(src/app.py lines 963-971). -/
def enemyIdleState : EnemyState :=
  { supported := true, reason := Option.none,
    factionName := Py.none, factionTag := Py.none, factionRespect := Py.none,
    factionId := Option.none, rows := [], counts := initCounts,
    updated_at := Option.none }

/-- `poll_once` (src/app.py lines 908-977) as a state transformer.
Fallible effects are passed in as `Except` values: the availability
read, the core faction fetch and the enemy faction fetch can raise;
`get_ranked_war_best` catches transport errors internally and always
returns a normalized dict (whose fixed key set never includes
`"error"`, so the reset at line 927-928 can never trigger), and is
passed in as `warNorm`.  The `STATE` mutations happen in source
order, so a raise leaves the writes made before it in place; the
returned pair is (outcome, state at exit). -/
def poll_once (factionId apiKey : String)
    (availRead : Except String AvailMap) (coreFetch : Except String Py)
    (warNorm : WarNorm) (enemyFetch : Except String Py)
    (medDeals : List Nat) (now : Nat) (st : AppState) :
    Except String Unit × AppState :=
  if factionId = "" ∨ apiKey = "" then
    (Except.error "Missing FACTION_ID or FACTION_API_KEY env vars.", st)
  else
    match availRead with
    | Except.error e => (Except.error e, st)
    | Except.ok availMap =>
      match coreFetch with
      | Except.error e => (Except.error e, st)
      | Except.ok payload =>
        if payload.isDict && truthy (getItem payload "error") then
          (Except.error "Torn API error (core)", st)
        else
          let n := normalize_faction_rows payload availMap
          let st1 := { st with
            rows := n.rows
            counts := n.counts
            available_count := n.available_count
            faction := n.header
            chain := n.chain }
          let st2 := { st1 with war := warSnapOf warNorm }
          let oppId := warNorm.opponent_id
          if truthy oppId then
            match enemyFetch with
            | Except.error e => (Except.error e, st2)
            | Except.ok ep =>
              let st3 :=
                if ep.isDict && truthy (getItem ep "error") then
                  { st2 with enemy := enemyErrState (pyStr oppId) now }
                else
                  let en := normalize_faction_rows ep []
                  { st2 with enemy :=
                    { supported := true
                      reason := Option.none
                      factionName := en.header.name
                      factionTag := en.header.tag
                      factionRespect := en.header.respect
                      factionId := some (pyStr oppId)
                      rows := en.rows
                      counts := en.counts
                      updated_at := some now } }
              (Except.ok (), { st3 with
                med_deals := medDeals
                updated_at := some now
                last_error := Option.none })
          else
            (Except.ok (), { st2 with
              enemy := enemyIdleState
              med_deals := medDeals
              updated_at := some now
              last_error := Option.none })

/-- One iteration of `poll_loop` (src/app.py lines 980-987): run
`poll_once`; on any raise, record `last_error` and `updated_at` and
carry on (the loop then sleeps and repeats — it is total, so no
failure can stop it). -/
def poll_loop_step (factionId apiKey : String)
    (availRead : Except String AvailMap) (coreFetch : Except String Py)
    (warNorm : WarNorm) (enemyFetch : Except String Py)
    (medDeals : List Nat) (now : Nat) (st : AppState) : AppState :=
  match poll_once factionId apiKey availRead coreFetch warNorm enemyFetch
      medDeals now st with
  | (Except.ok _, s) => s
  | (Except.error e, s) =>
    { s with last_error := some e, updated_at := some now }

/-- The poll-relevant fields of the initial module-level `STATE`
(src/app.py lines 30-48). -/
def initialState : AppState :=
  { rows := []
    counts := initCounts
    available_count := 0
    faction := { name := Py.none, tag := Py.none, respect := Py.none }
    chain := { current := Py.int 0, max := Py.int 10, timeout := Py.int 0,
               cooldown := Py.int 0 }
    war := { opponent := Py.none, opponent_id := Py.none, start := Py.none,
             «end» := Py.none, target := Option.none, score := Option.none,
             enemy_score := Option.none }
    enemy := enemyIdleState
    med_deals := []
    updated_at := Option.none
    last_error := Option.none }

/-- A normalized war dict whose only populated field is an opponent
ID, as produced when the ranked-war payload identifies the opponent. -/
def warWithOpponent : WarNorm :=
  { emptyWarNorm with opponent_id := Py.str "2002" }

/-! ## Helper lemmas -/

theorem toLower_of_isDigit (c : Char) (h : c.isDigit = true) :
    c.toLower = c := by
  simp only [Char.isDigit, Bool.and_eq_true, decide_eq_true_eq] at h
  obtain ⟨h1, h2⟩ := h
  have h2' : c.val.toNat ≤ 57 := UInt32.le_def.mp h2
  unfold Char.toLower
  rw [if_neg]
  intro hc
  obtain ⟨h3, _⟩ := hc
  unfold Char.toNat at h3
  omega

theorem map_toLower_digits (ds : List Char) (h : ds.all Char.isDigit = true) :
    ds.map Char.toLower = ds := by
  induction ds with
  | nil => rfl
  | cons c t ih =>
    simp only [List.all_cons, Bool.and_eq_true] at h
    simp [toLower_of_isDigit c h.1, ih h.2]

theorem notMem_digits (ds : List Char) (h : ds.all Char.isDigit = true)
    (d : Char) (hd : d.isDigit = false) : d ∉ ds := by
  intro hmem
  have := List.all_eq_true.mp h d hmem
  rw [hd] at this
  cases this

theorem isPrefixOf_cons_eq_false (pat : List Char) (c d : Char)
    (l : List Char) (hpat : pat.head? = some c) (hcd : c ≠ d) :
    pat.isPrefixOf (d :: l) = false := by
  cases pat with
  | nil => simp at hpat
  | cons p ps =>
    obtain rfl : p = c := by simpa using hpat
    simp [List.isPrefixOf, hcd]

theorem containsSub_append (pat ds rest : List Char) (c : Char)
    (hpat : pat.head? = some c) (hc : c ∉ ds) :
    containsSub pat (ds ++ rest) = containsSub pat rest := by
  induction ds with
  | nil => rfl
  | cons d t ih =>
    have hcd : c ≠ d := fun he => hc (he ▸ List.mem_cons_self d t)
    have hct : c ∉ t := fun hmem => hc (List.mem_cons_of_mem d hmem)
    simp only [List.cons_append, containsSub, List.append_eq,
      isPrefixOf_cons_eq_false pat c d (t ++ rest) hpat hcd,
      Bool.false_or]
    exact ih hct

theorem splitBefore_append (pat ds rest : List Char) (c : Char)
    (hpat : pat.head? = some c) (hc : c ∉ ds) :
    splitBefore pat (ds ++ rest) = ds ++ splitBefore pat rest := by
  induction ds with
  | nil => rfl
  | cons d t ih =>
    have hcd : c ≠ d := fun he => hc (he ▸ List.mem_cons_self d t)
    have hct : c ∉ t := fun hmem => hc (List.mem_cons_of_mem d hmem)
    simp only [List.cons_append, splitBefore, List.append_eq,
      isPrefixOf_cons_eq_false pat c d (t ++ rest) hpat hcd,
      Bool.false_eq_true, if_false]
    rw [ih hct]

theorem isPySpace_of_isDigit (c : Char) (h : c.isDigit = true) :
    isPySpace c = false := by
  simp only [Char.isDigit, Bool.and_eq_true, decide_eq_true_eq] at h
  obtain ⟨h1, h2⟩ := h
  have h1' : 48 ≤ c.val.toNat := UInt32.le_def.mp h1
  have h2' : c.val.toNat ≤ 57 := UInt32.le_def.mp h2
  have hne : ∀ d : Char, d.val.toNat < 48 → c ≠ d := by
    intro d hd he
    subst he
    omega
  unfold isPySpace
  simp [hne ' ' (by decide), hne '\t' (by decide), hne '\n' (by decide),
    hne '\x0d' (by decide), hne '\x0b' (by decide), hne '\x0c' (by decide)]

theorem dropWhile_eq_self_of (p : Char → Bool) (l : List Char)
    (h : ∀ c ∈ l, p c = false) : l.dropWhile p = l := by
  cases l with
  | nil => rfl
  | cons c t => simp [List.dropWhile, h c (List.mem_cons_self c t)]

theorem stripChars_digits_space (ds : List Char) (h1 : ds ≠ [])
    (h2 : ds.all Char.isDigit = true) : stripChars (ds ++ [' ']) = ds := by
  have hns : ∀ c ∈ ds, isPySpace c = false := fun c hc =>
    isPySpace_of_isDigit c (List.all_eq_true.mp h2 c hc)
  obtain ⟨d, t, rfl⟩ := List.exists_cons_of_ne_nil h1
  have hd : isPySpace d = false := hns d (List.mem_cons_self d t)
  unfold stripChars
  rw [List.cons_append, List.dropWhile_cons, hd]
  simp only [Bool.false_eq_true, if_false]
  rw [show d :: (t ++ [' ']) = (d :: t) ++ [' '] from rfl]
  rw [List.reverse_append]
  rw [show ([' '] : List Char).reverse = [' '] from rfl]
  rw [List.singleton_append]
  rw [List.dropWhile_cons]
  rw [show isPySpace ' ' = true from by decide]
  simp only [if_true]
  rw [dropWhile_eq_self_of isPySpace ((d :: t).reverse)
    (fun c hc => hns c (List.mem_reverse.mp hc))]
  exact List.reverse_reverse _

theorem pyIntCore_digits (ds : List Char) (h1 : ds ≠ [])
    (h2 : ds.all Char.isDigit = true) :
    pyIntCore ds = some ((digitsVal ds : Nat) : Int) := by
  obtain ⟨d, t, rfl⟩ := List.exists_cons_of_ne_nil h1
  have hd : d.isDigit = true := by
    simpa using List.all_eq_true.mp h2 d (List.mem_cons_self d t)
  have hplus : d ≠ '+' := fun he => by subst he; exact absurd hd (by decide)
  have hminus : d ≠ '-' := fun he => by subst he; exact absurd hd (by decide)
  simp only [pyIntCore]
  rw [if_neg hplus, if_neg hminus]
  unfold digitsOpt
  rw [if_pos ⟨by simp, h2⟩]
  rfl

theorem parse_digits_minute_case (ds rest : List Char) (h1 : ds ≠ [])
    (h2 : ds.all Char.isDigit = true)
    (hrest : rest.map Char.toLower = rest)
    (hj : containsSub justNowPat rest = false)
    (hm : containsSub minutePat rest = true)
    (hsp : splitBefore minutePat rest = [' ']) :
    parse_rel_minutes (ds ++ rest) = (digitsVal ds : Int) := by
  have hj' : containsSub justNowPat (ds ++ rest) = false := by
    rw [containsSub_append justNowPat ds _ 'j' rfl
      (notMem_digits ds h2 'j' (by decide))]
    exact hj
  have hm' : containsSub minutePat (ds ++ rest) = true := by
    rw [containsSub_append minutePat ds _ 'm' rfl
      (notMem_digits ds h2 'm' (by decide))]
    exact hm
  have hs : stripChars (splitBefore minutePat (ds ++ rest)) = ds := by
    rw [splitBefore_append minutePat ds _ 'm' rfl
      (notMem_digits ds h2 'm' (by decide))]
    rw [hsp]
    exact stripChars_digits_space ds h1 h2
  simp only [parse_rel_minutes, List.map_append, map_toLower_digits ds h2,
    hrest, hj', hm', hs, pyIntCore_digits ds h1 h2, Bool.false_eq_true,
    if_false, if_true]

theorem parse_digits_hour_case (ds rest : List Char) (h1 : ds ≠ [])
    (h2 : ds.all Char.isDigit = true)
    (hrest : rest.map Char.toLower = rest)
    (hj : containsSub justNowPat rest = false)
    (hm : containsSub minutePat rest = false)
    (hh : containsSub hourPat rest = true)
    (hsp : splitBefore hourPat rest = [' ']) :
    parse_rel_minutes (ds ++ rest) = (digitsVal ds : Int) * 60 := by
  have hj' : containsSub justNowPat (ds ++ rest) = false := by
    rw [containsSub_append justNowPat ds _ 'j' rfl
      (notMem_digits ds h2 'j' (by decide))]
    exact hj
  have hm' : containsSub minutePat (ds ++ rest) = false := by
    rw [containsSub_append minutePat ds _ 'm' rfl
      (notMem_digits ds h2 'm' (by decide))]
    exact hm
  have hh' : containsSub hourPat (ds ++ rest) = true := by
    rw [containsSub_append hourPat ds _ 'h' rfl
      (notMem_digits ds h2 'h' (by decide))]
    exact hh
  have hs : stripChars (splitBefore hourPat (ds ++ rest)) = ds := by
    rw [splitBefore_append hourPat ds _ 'h' rfl
      (notMem_digits ds h2 'h' (by decide))]
    rw [hsp]
    exact stripChars_digits_space ds h1 h2
  simp only [parse_rel_minutes, List.map_append, map_toLower_digits ds h2,
    hrest, hj', hm', hh', hs, pyIntCore_digits ds h1 h2, Bool.false_eq_true,
    if_false, if_true]

theorem parse_digits_day_case (ds rest : List Char) (h1 : ds ≠ [])
    (h2 : ds.all Char.isDigit = true)
    (hrest : rest.map Char.toLower = rest)
    (hj : containsSub justNowPat rest = false)
    (hm : containsSub minutePat rest = false)
    (hh : containsSub hourPat rest = false)
    (hd : containsSub dayPat rest = true)
    (hsp : splitBefore dayPat rest = [' ']) :
    parse_rel_minutes (ds ++ rest) = (digitsVal ds : Int) * 1440 := by
  have hj' : containsSub justNowPat (ds ++ rest) = false := by
    rw [containsSub_append justNowPat ds _ 'j' rfl
      (notMem_digits ds h2 'j' (by decide))]
    exact hj
  have hm' : containsSub minutePat (ds ++ rest) = false := by
    rw [containsSub_append minutePat ds _ 'm' rfl
      (notMem_digits ds h2 'm' (by decide))]
    exact hm
  have hh' : containsSub hourPat (ds ++ rest) = false := by
    rw [containsSub_append hourPat ds _ 'h' rfl
      (notMem_digits ds h2 'h' (by decide))]
    exact hh
  have hd' : containsSub dayPat (ds ++ rest) = true := by
    rw [containsSub_append dayPat ds _ 'd' rfl
      (notMem_digits ds h2 'd' (by decide))]
    exact hd
  have hs : stripChars (splitBefore dayPat (ds ++ rest)) = ds := by
    rw [splitBefore_append dayPat ds _ 'd' rfl
      (notMem_digits ds h2 'd' (by decide))]
    rw [hsp]
    exact stripChars_digits_space ds h1 h2
  simp only [parse_rel_minutes, List.map_append, map_toLower_digits ds h2,
    hrest, hj', hm', hh', hd', hs, pyIntCore_digits ds h1 h2,
    Bool.false_eq_true, if_false, if_true]

theorem parse_digits_sentinel_case (ds rest : List Char)
    (h2 : ds.all Char.isDigit = true)
    (hrest : rest.map Char.toLower = rest)
    (hj : containsSub justNowPat rest = false)
    (hm : containsSub minutePat rest = false)
    (hh : containsSub hourPat rest = false)
    (hd : containsSub dayPat rest = false) :
    parse_rel_minutes (ds ++ rest) = 999 := by
  have hj' : containsSub justNowPat (ds ++ rest) = false := by
    rw [containsSub_append justNowPat ds _ 'j' rfl
      (notMem_digits ds h2 'j' (by decide))]
    exact hj
  have hm' : containsSub minutePat (ds ++ rest) = false := by
    rw [containsSub_append minutePat ds _ 'm' rfl
      (notMem_digits ds h2 'm' (by decide))]
    exact hm
  have hh' : containsSub hourPat (ds ++ rest) = false := by
    rw [containsSub_append hourPat ds _ 'h' rfl
      (notMem_digits ds h2 'h' (by decide))]
    exact hh
  have hd' : containsSub dayPat (ds ++ rest) = false := by
    rw [containsSub_append dayPat ds _ 'd' rfl
      (notMem_digits ds h2 'd' (by decide))]
    exact hd
  simp only [parse_rel_minutes, List.map_append, map_toLower_digits ds h2,
    hrest, hj', hm', hh', hd', Bool.false_eq_true, if_false]

/-! ## Claim theorems -/

/-- Claim C2 (confirmed): the status bucketer maps `minutes ≤ 20` to
`online`, `20 < minutes ≤ 30` to `idle`, anything larger to `offline`;
in particular 20 ↦ online, 21 ↦ idle, 30 ↦ idle, 31 ↦ offline. -/
theorem classify_status_buckets (m : Int) :
    (classify_status m = "online" ↔ m ≤ 20) ∧
    (classify_status m = "idle" ↔ 20 < m ∧ m ≤ 30) ∧
    (classify_status m = "offline" ↔ 30 < m) ∧
    classify_status 20 = "online" ∧ classify_status 21 = "idle" ∧
    classify_status 30 = "idle" ∧ classify_status 31 = "offline" := by
  refine ⟨?_, ?_, ?_, by decide, by decide, by decide, by decide⟩ <;>
    (by_cases h1 : m ≤ 20 <;> by_cases h2 : m ≤ 30 <;>
      simp [classify_status, h1, h2] <;> omega)

/-- Claim C3 (counterexample): the claim fails on the code in three
ways at concrete inputs: the literal `"now"` parses to the sentinel
`999`, not `0`; a `"<N> second(s) ago"` string is not recognized at
all (it parses to `999`, not to a seconds-scaled value); and the
sentinel `999` is NOT strictly larger than every recognized value —
`"2 days ago"` parses to `2880 > 999`, so very stale entries sort
after unknown-recency ones. -/
theorem parse_last_action_claim_counterexample :
    parse_rel_minutes "now".data = 999 ∧ (999 : Int) ≠ 0 ∧
    parse_rel_minutes "12 seconds ago".data = 999 ∧
    parse_rel_minutes "2 days ago".data = 2880 ∧ (999 : Int) < 2880 := by
  refine ⟨by decide, by decide, by decide, by decide, by decide⟩

/-- Claim C3 (amended): the relative-time parser recognizes only the
units minute/hour/day (by substring match, so singular and plural
alike), scaling the leading integer by 1, 60 and 1440 respectively;
any text containing `"just now"` parses to `0`; second/week/month/year
strings and the bare literal `"now"` are unrecognized and parse to the
sentinel `999` (which recognized values of 17 hours or more exceed). -/
theorem parse_last_action_amended (ds : List Char) (h1 : ds ≠ [])
    (h2 : ds.all Char.isDigit = true) :
    parse_rel_minutes (ds ++ " minute ago".data) = (digitsVal ds : Int) ∧
    parse_rel_minutes (ds ++ " minutes ago".data) = (digitsVal ds : Int) ∧
    parse_rel_minutes (ds ++ " hour ago".data) = (digitsVal ds : Int) * 60 ∧
    parse_rel_minutes (ds ++ " hours ago".data) = (digitsVal ds : Int) * 60 ∧
    parse_rel_minutes (ds ++ " day ago".data) = (digitsVal ds : Int) * 1440 ∧
    parse_rel_minutes (ds ++ " days ago".data) = (digitsVal ds : Int) * 1440 ∧
    parse_rel_minutes (ds ++ " seconds ago".data) = 999 ∧
    parse_rel_minutes (ds ++ " weeks ago".data) = 999 ∧
    parse_rel_minutes (ds ++ " months ago".data) = 999 ∧
    parse_rel_minutes (ds ++ " years ago".data) = 999 ∧
    parse_rel_minutes "just now".data = 0 ∧
    parse_rel_minutes "now".data = 999 := by
  refine ⟨parse_digits_minute_case ds _ h1 h2 (by decide) (by decide)
      (by decide) (by decide),
    parse_digits_minute_case ds _ h1 h2 (by decide) (by decide) (by decide)
      (by decide),
    parse_digits_hour_case ds _ h1 h2 (by decide) (by decide) (by decide)
      (by decide) (by decide),
    parse_digits_hour_case ds _ h1 h2 (by decide) (by decide) (by decide)
      (by decide) (by decide),
    parse_digits_day_case ds _ h1 h2 (by decide) (by decide) (by decide)
      (by decide) (by decide) (by decide),
    parse_digits_day_case ds _ h1 h2 (by decide) (by decide) (by decide)
      (by decide) (by decide) (by decide),
    parse_digits_sentinel_case ds _ h2 (by decide) (by decide) (by decide)
      (by decide) (by decide),
    parse_digits_sentinel_case ds _ h2 (by decide) (by decide) (by decide)
      (by decide) (by decide),
    parse_digits_sentinel_case ds _ h2 (by decide) (by decide) (by decide)
      (by decide) (by decide),
    parse_digits_sentinel_case ds _ h2 (by decide) (by decide) (by decide)
      (by decide) (by decide),
    by decide, by decide⟩

/-- Witness for C3's amended theorem at `ds = "5"`. -/
theorem parse_last_action_amended_witness :
    parse_rel_minutes "5 minutes ago".data = (5 : Int) ∧
    parse_rel_minutes "5 hours ago".data = (300 : Int) ∧
    parse_rel_minutes "5 days ago".data = (7200 : Int) ∧
    parse_rel_minutes "5 seconds ago".data = 999 ∧
    parse_rel_minutes "just now".data = 0 ∧
    parse_rel_minutes "now".data = 999 := by
  obtain ⟨_, hmins, _, hhours, _, hdays, hsecs, _, _, _, hjn, hnow⟩ :=
    parse_last_action_amended ['5'] (by decide) (by decide)
  exact ⟨hmins, hhours, hdays, hsecs, hjn, hnow⟩

theorem rowsLoop_mem_available (am : AvailMap) (items : List (String × Py)) :
    ∀ r ∈ (rowsLoop am items).1, r.available = availLookup am r.id := by
  induction items with
  | nil => intro r hr; simp [rowsLoop] at hr
  | cons it rest ih =>
    intro r hr
    obtain ⟨mid, m⟩ := it
    by_cases hd : m.isDict = true
    · simp only [rowsLoop, hd, if_true, List.mem_cons] at hr
      rcases hr with h | h
      · subst h; simp [mkRow]
      · exact ih r h
    · simp only [rowsLoop, hd, Bool.false_eq_true, if_false] at hr
      exact ih r hr

theorem tornIdOfMember_of_falsy_id (mid : String) (m : Py)
    (h : truthy (getItem m "id") = false) :
    tornIdOfMember mid m = pyStrip mid := by
  unfold tornIdOfMember truthyOr
  rw [h]
  simp only [Bool.false_eq_true, if_false, pyStr]
  split <;> rename_i hs
  · exact rfl
  · exact rfl

theorem rowsLoop_ids_sublist (am : AvailMap) (kvs : List (String × Py))
    (h : ∀ p ∈ kvs, truthy (getItem p.2 "id") = false) :
    ((rowsLoop am kvs).1.map Row.id).Sublist
      (kvs.map (fun p => pyStrip p.1)) := by
  induction kvs with
  | nil => simp [rowsLoop]
  | cons p rest ih =>
    obtain ⟨mid, m⟩ := p
    have hrest : ∀ q ∈ rest, truthy (getItem q.2 "id") = false :=
      fun q hq => h q (List.mem_cons_of_mem _ hq)
    by_cases hd : m.isDict = true
    · simp only [rowsLoop, hd, if_true, List.map_cons]
      have hid : (mkRow am mid m).id = pyStrip mid := by
        simp [mkRow]
        exact tornIdOfMember_of_falsy_id mid m
          (h (mid, m) (List.mem_cons_self _ _))
      rw [hid]
      exact List.Sublist.cons₂ _ (ih hrest)
    · simp only [rowsLoop, hd, Bool.false_eq_true, if_false, List.map_cons]
      exact List.Sublist.cons _ (ih hrest)

/-- Claim C1 (counterexample): the merge step does NOT force the
opted-in flag to false for members outside the eligible-sitter
allow-list.  With allow-list `["55"]`, member `99` is not a chain
sitter, yet a persisted availability entry for `99` makes the merged
row's `available` flag true. -/
theorem merge_ignores_allowlist_counterexample :
    is_chain_sitter ["55"] "99" = false ∧
    ((normalize_faction_rows
        (Py.dict [("members",
          Py.dict [("99", Py.dict [("name", Py.str "Mallory")])])])
        [("99", true)]).rows.map (fun r => (r.id, r.available)))
      = [("99", true)] := by
  refine ⟨by decide, by decide⟩

/-- Claim C1 (amended): the merge step sets a row's `available` flag
to exactly the persisted availability map's entry for the row's ID
(defaulting to false) — it performs no eligibility check at all; the
allow-list is consulted only by the update endpoint at write time. -/
theorem merge_available_follows_map (v2 : Py) (am : AvailMap) (r : Row)
    (_hwf : payloadWF v2 = true)
    (hr : r ∈ (normalize_faction_rows v2 am).rows) :
    r.available = availLookup am r.id :=
  rowsLoop_mem_available am _ r hr

/-- Witness for C1's amended theorem on the spec's own end-to-end
payload (member 55 "Ann", availability map `{55 ↦ true}`). -/
theorem merge_available_follows_map_witness :
    (mkRow [("55", true)] "55"
        (Py.dict [("id", Py.int 55), ("name", Py.str "Ann")])).available
      = availLookup [("55", true)]
        (mkRow [("55", true)] "55"
          (Py.dict [("id", Py.int 55), ("name", Py.str "Ann")])).id := by
  exact merge_available_follows_map
    (Py.dict [("members", Py.dict [("55",
      Py.dict [("id", Py.int 55), ("name", Py.str "Ann")])])])
    [("55", true)] _ (by decide)
    (List.mem_singleton.mpr rfl)

/-- Claim C9 (counterexample): the normalizer performs no
deduplication — a members array with two entries carrying the same
inner `id` produces two rows with the same external ID. -/
theorem normalize_duplicate_ids_counterexample :
    ((normalize_faction_rows (Py.dict [("members", Py.list
        [Py.dict [("id", Py.int 5)], Py.dict [("id", Py.int 5)]])])
      []).rows.map Row.id) = ["5", "5"] ∧
    ¬ (["5", "5"] : List String).Nodup := by
  refine ⟨by decide, by decide⟩

/-- Claim C9 (amended): when the raw members payload is a keyed map
whose entries carry no truthy inner `id` field (so IDs come from the
map keys) and the stripped keys are pairwise distinct, the normalized
rows carry pairwise distinct external IDs; in general the normalizer
does not deduplicate, and duplicate inner `id` fields yield duplicate
rows. -/
theorem normalize_keyed_map_nodup (v2 : Py) (am : AvailMap)
    (kvs : List (String × Py))
    (hm : truthyOr (getItem v2 "members") (Py.dict []) = Py.dict kvs)
    (hid : ∀ p ∈ kvs, truthy (getItem p.2 "id") = false)
    (hnd : (kvs.map (fun p => pyStrip p.1)).Nodup) :
    ((normalize_faction_rows v2 am).rows.map Row.id).Nodup := by
  have hrows : (normalize_faction_rows v2 am).rows
      = (rowsLoop am (memberItems (Py.dict kvs))).1 := by
    unfold normalize_faction_rows
    rw [hm]
  rw [hrows]
  exact List.Nodup.sublist (rowsLoop_ids_sublist am kvs hid) hnd

/-- Witness for C9's amended theorem on a two-member keyed map. -/
theorem normalize_keyed_map_nodup_witness :
    ((normalize_faction_rows
        (Py.dict [("members", Py.dict
          [("1", Py.dict [("name", Py.str "A")]),
           ("2", Py.dict [("name", Py.str "B")])])])
      []).rows.map Row.id).Nodup := by
  exact normalize_keyed_map_nodup _ []
    [("1", Py.dict [("name", Py.str "A")]),
     ("2", Py.dict [("name", Py.str "B")])]
    rfl (by decide) (by decide)

theorem availLookup_cons (x : String × Bool) (l : AvailMap) (t : String) :
    availLookup (x :: l) t = if x.1 = t then x.2 else availLookup l t := by
  by_cases h : x.1 = t
  · unfold availLookup
    rw [List.find?_cons_of_pos _ (by simpa using h)]
    simp [h]
  · unfold availLookup
    rw [List.find?_cons_of_neg _ (by simpa using h)]
    simp [h]

theorem availLookup_upsert (t : String) (a : Bool) (s : AvailMap) :
    availLookup (upsert_availability t a s) t = a := by
  induction s with
  | nil =>
    unfold upsert_availability
    simp [availLookup_cons]
  | cons kv rest ih =>
    unfold upsert_availability
    by_cases hk : kv.1 = t
    · rw [if_pos (by simp [List.any_cons, hk])]
      simp only [List.map_cons, if_pos hk]
      rw [availLookup_cons]
      simp [hk]
    · by_cases ha : rest.any (fun q => q.1 = t) = true
      · rw [if_pos (by simp [List.any_cons, ha])]
        simp only [List.map_cons, if_neg hk]
        rw [availLookup_cons, if_neg hk]
        have ih' := ih
        unfold upsert_availability at ih'
        rw [if_pos ha] at ih'
        exact ih'
      · rw [if_neg (by simp [List.any_cons, hk, ha])]
        rw [List.cons_append, availLookup_cons, if_neg hk]
        have ih' := ih
        unfold upsert_availability at ih'
        rw [if_neg (by simp [ha])] at ih'
        exact ih'

/-- Claim C10 (confirmed): with an empty chain-sitter allow-list the
availability endpoint performs no eligibility check — every request
that passes the token check and carries a non-empty ID is accepted,
and the submitted flag is persisted (a subsequent lookup of that ID in
the store returns the submitted flag). -/
theorem api_availability_empty_allowlist (tok : String) (srcs : List Py)
    (data : Py) (store : AvailMap)
    (htok : token_ok tok srcs = true)
    (hid : tornIdOfReq data ≠ "") :
    api_availability [] (token_ok tok srcs) data store
      = (ApiResult.accepted (tornIdOfReq data) (availOfReq data),
         upsert_availability (tornIdOfReq data) (availOfReq data) store) ∧
    availLookup
      (upsert_availability (tornIdOfReq data) (availOfReq data) store)
      (tornIdOfReq data) = availOfReq data := by
  constructor
  · rw [htok]
    unfold api_availability
    simp [hid]
  · exact availLookup_upsert _ _ _

/-- Witness for C10: no token configured, ID `777`, flag `true`,
initially empty store. -/
theorem api_availability_empty_allowlist_witness :
    api_availability []
        (token_ok "" [])
        (Py.dict [("torn_id", Py.str "777"), ("available", Py.bool true)]) []
      = (ApiResult.accepted "777" true, [("777", true)]) ∧
    availLookup [("777", true)] "777" = true := by
  exact api_availability_empty_allowlist "" []
    (Py.dict [("torn_id", Py.str "777"), ("available", Py.bool true)]) []
    (by decide) (by decide)

/-- Claim C4 (code bug): on the two-entry faction collection
`{"1001": {"name":"Us"}, "2002": {"name":"Them"}}` with our own ID
`1001`, `_extract_opponent_name` returns the FIRST entry's name `"Us"`
— our own faction — instead of eliminating our ID and returning
`"Them"`; the opponent ID extracted alongside it is `"2002"`, so the
normalized war pairs our own name with the enemy's ID. -/
theorem opponent_name_not_eliminated :
    (normalize_ranked_war
        (Py.dict [("factions", Py.dict
          [("1001", Py.dict [("name", Py.str "Us")]),
           ("2002", Py.dict [("name", Py.str "Them")])])])
        "1001").opponent = Py.str "Us" ∧
    (normalize_ranked_war
        (Py.dict [("factions", Py.dict
          [("1001", Py.dict [("name", Py.str "Us")]),
           ("2002", Py.dict [("name", Py.str "Them")])])])
        "1001").opponent_id = Py.str "2002" ∧
    ("Us" : String) ≠ "Them" := by
  refine ⟨rfl, rfl, by decide⟩

/-- Claim C8 (counterexample): when every entry of the ranked-wars
list has an end time, `_find_active_war_blob` falls back to the FIRST
entry of the list, not to the most recent by start time: with entries
(start 5, end 1) then (start 10, end 2) it picks the one with start 5,
although the most recent start is 10. -/
theorem find_active_war_fallback_counterexample :
    find_active_war_blob (Py.dict [("rankedwars", Py.list
        [Py.dict [("start", Py.int 5), ("end", Py.int 1)],
         Py.dict [("start", Py.int 10), ("end", Py.int 2)]])])
      = Py.dict [("start", Py.int 5), ("end", Py.int 1)] ∧
    getItem (Py.dict [("start", Py.int 5), ("end", Py.int 1)]) "start"
      = Py.int 5 ∧
    getItem (Py.dict [("start", Py.int 10), ("end", Py.int 2)]) "start"
      = Py.int 10 ∧
    (5 : Int) ≠ 10 := by
  refine ⟨rfl, rfl, rfl, by decide⟩

/-- Claim C8 (amended): from a ranked-wars list the selector returns
the first entry without a truthy end time when one exists; otherwise
it returns the first entry of the list (not the most recent by start
time). -/
theorem find_active_war_selection (rwl : List Py) (e : Py) :
    (rwl.find? isUnendedDict = some e →
      find_active_war_blob (Py.dict [("rankedwars", Py.list rwl)]) = e ∧
      isUnendedDict e = true) ∧
    (rwl.find? isUnendedDict = Option.none → rwl ≠ [] →
      find_active_war_blob (Py.dict [("rankedwars", Py.list rwl)])
        = rwl.headD Py.none) := by
  cases rwl with
  | nil =>
    constructor
    · intro h; simp at h
    · intro _ hne; exact absurd rfl hne
  | cons i0 rest =>
    constructor
    · intro h
      have hred : find_active_war_blob
          (Py.dict [("rankedwars", Py.list (i0 :: rest))])
          = (match (i0 :: rest).find? isUnendedDict with
             | some item => item
             | Option.none => i0) := rfl
      rw [hred, h]
      exact ⟨rfl, List.find?_some h⟩
    · intro h _
      have hred : find_active_war_blob
          (Py.dict [("rankedwars", Py.list (i0 :: rest))])
          = (match (i0 :: rest).find? isUnendedDict with
             | some item => item
             | Option.none => i0) := rfl
      rw [hred, h]
      rfl

/-- Witness for C8's amended theorem: a list with one ended and one
unended entry selects the unended one; a list whose single entry has
ended selects the head. -/
theorem find_active_war_selection_witness :
    (find_active_war_blob (Py.dict [("rankedwars", Py.list
        [Py.dict [("end", Py.int 1)], Py.dict []])]) = Py.dict [] ∧
      isUnendedDict (Py.dict []) = true) ∧
    find_active_war_blob (Py.dict [("rankedwars", Py.list
        [Py.dict [("end", Py.int 1)]])])
      = ([Py.dict [("end", Py.int 1)]] : List Py).headD Py.none := by
  exact ⟨(find_active_war_selection
      [Py.dict [("end", Py.int 1)], Py.dict []] (Py.dict [])).1 rfl,
    (find_active_war_selection [Py.dict [("end", Py.int 1)]] Py.none).2 rfl
      (by simp)⟩

/-- Claim C5 (confirmed): with posts enabled, alert channel and role
configured, the channel resolved and sends succeeding, a first-ever
predicate-true evaluation dispatches and records the time; a second
predicate-true evaluation less than the cooldown after the recorded
dispatch does not dispatch, while one at least the cooldown later
does. -/
theorem cooldown_gating (th cd chId rId ac1 ac2 t1 t2 : Int)
    (hch : chId ≠ 0) (hr : rId ≠ 0) (hp1 : th ≤ ac1) (hp2 : th ≤ ac2) :
    ping_step false th cd chId rId true true ac1 t1 Option.none
      = (true, some t1) ∧
    (t2 - t1 < cd →
      ping_step false th cd chId rId true true ac2 t2 (some t1)
        = (false, some t1)) ∧
    (cd ≤ t2 - t1 →
      (ping_step false th cd chId rId true true ac2 t2 (some t1)).1
        = true) := by
  refine ⟨?_, ?_, ?_⟩
  · simp [ping_step, hch, hr, hp1]
  · intro hlt
    have hcan : decide (cd ≤ t2 - t1) = false :=
      decide_eq_false (not_le.mpr hlt)
    simp [ping_step, hch, hr, hp2, hcan]
  · intro hge
    have hcan : decide (cd ≤ t2 - t1) = true := decide_eq_true hge
    simp [ping_step, hch, hr, hp2, hcan]

/-- Witness for C5: threshold 5, cooldown 600, count 6; first firing
at t=1000, suppressed re-evaluation at t=1500, firing re-evaluation at
t=1600. -/
theorem cooldown_gating_witness :
    ping_step false 5 600 1 1 true true 6 1000 Option.none
      = (true, some 1000) ∧
    ping_step false 5 600 1 1 true true 6 1500 (some 1000)
      = (false, some 1000) ∧
    (ping_step false 5 600 1 1 true true 6 1600 (some 1000)).1 = true := by
  obtain ⟨a, b, _⟩ := cooldown_gating 5 600 1 1 6 6 1000 1500
    (by decide) (by decide) (by decide) (by decide)
  obtain ⟨_, _, c⟩ := cooldown_gating 5 600 1 1 6 6 1000 1600
    (by decide) (by decide) (by decide) (by decide)
  exact ⟨a, b (by decide), c (by decide)⟩

/-- Claim C7 (counterexample): a failed send does NOT leave a cooldown
timestamp behind — at t=100 the predicate fires, the send fails, and
the stored time stays `none`; the very next predicate-true evaluation
at t=150 (well inside the 600s cooldown window) dispatches again, so a
fired-but-undelivered alert IS retried. -/
theorem dispatch_failure_retried_counterexample :
    ping_step false 5 600 1 1 true false 6 100 Option.none
      = (true, Option.none) ∧
    (ping_step false 5 600 1 1 true true 6 150 Option.none).1 = true := by
  refine ⟨by decide, by decide⟩

/-- Claim C7 (amended): when a dispatch is attempted and the send
fails, the exception is caught (the loop is not killed) and the
cooldown timestamp is NOT recorded — the stored state is unchanged —
so the alert IS retried at any later predicate-true evaluation. -/
theorem dispatch_failure_amended (th cd chId rId ac t t' : Int)
    (st : Option Int) (hch : chId ≠ 0) (hr : rId ≠ 0) (hp : th ≤ ac)
    (hcan : ∀ t0, st = some t0 → cd ≤ t - t0) (ht : t ≤ t') :
    ping_step false th cd chId rId true false ac t st = (true, st) ∧
    (ping_step false th cd chId rId true true ac t' st).1 = true := by
  cases st with
  | none =>
    constructor
    · simp [ping_step, hch, hr, hp]
    · simp [ping_step, hch, hr, hp]
  | some t0 =>
    have h0 : cd ≤ t - t0 := hcan t0 rfl
    have h1 : decide (cd ≤ t - t0) = true := decide_eq_true h0
    have h2 : decide (cd ≤ t' - t0) = true := decide_eq_true (by omega)
    constructor
    · simp [ping_step, hch, hr, hp, h1]
    · simp [ping_step, hch, hr, hp, h2]

/-- Witness for C7's amended theorem: previous firing at t=0, cooldown
600, failed dispatch at t=700, successful retry at t=800. -/
theorem dispatch_failure_amended_witness :
    ping_step false 5 600 1 1 true false 6 700 (some 0)
      = (true, some 0) ∧
    (ping_step false 5 600 1 1 true true 6 800 (some 0)).1 = true := by
  exact dispatch_failure_amended 5 600 1 1 6 700 800 (some 0)
    (by decide) (by decide) (by decide)
    (fun t0 h => by injection h with h'; omega) (by decide)

/-- Claim C6 (counterexample): a fetch failure does NOT leave the rest
of the snapshot untouched.  Starting from the initial state with no
rows, the core fetch succeeds (one member) and the enemy fetch then
fails: `last_error` and `updated_at` are recorded, but the published
rows have already been replaced (0 rows before, 1 after), so the
previous snapshot was not retained untouched. -/
theorem poll_mid_cycle_update_counterexample :
    (poll_loop_step "1001" "key" (Except.ok [])
        (Except.ok (Py.dict [("members",
          Py.dict [("55", Py.dict [("name", Py.str "Ann")])])]))
        warWithOpponent (Except.error "socket timeout") [] 42
        initialState).last_error = some "socket timeout" ∧
    (poll_loop_step "1001" "key" (Except.ok [])
        (Except.ok (Py.dict [("members",
          Py.dict [("55", Py.dict [("name", Py.str "Ann")])])]))
        warWithOpponent (Except.error "socket timeout") [] 42
        initialState).updated_at = some 42 ∧
    initialState.rows.length = 0 ∧
    (poll_loop_step "1001" "key" (Except.ok [])
        (Except.ok (Py.dict [("members",
          Py.dict [("55", Py.dict [("name", Py.str "Ann")])])]))
        warWithOpponent (Except.error "socket timeout") [] 42
        initialState).rows.length = 1 := by
  refine ⟨by decide, by decide, by decide, by decide⟩

/-- Claim C6 (amended): a failing cycle records `last_error` with the
cause and a timestamp and the loop-step is total (the loop always
continues to the next tick); but only the fields not yet written at
the failure point keep their previous values.  When the FIRST (core)
fetch fails the whole previous snapshot is retained; when the enemy
fetch fails, the member rows, counts, faction, chain and war fields
have already been replaced, and only `enemy` and `med_deals` (plus the
not-yet-overwritten `updated_at`/`last_error`) are retained from the
previous snapshot. -/
theorem poll_error_handling_amended (fid key : String) (am : AvailMap)
    (coreP : Py) (w : WarNorm) (e : String) (md : List Nat) (now : Nat)
    (st : AppState) (hfid : fid ≠ "") (hkey : key ≠ "") :
    (poll_loop_step fid key (Except.ok am) (Except.error e) w
        (Except.error e) md now st
      = { st with last_error := some e, updated_at := some now }) ∧
    ((coreP.isDict && truthy (getItem coreP "error")) = false →
      truthy w.opponent_id = true →
      (poll_loop_step fid key (Except.ok am) (Except.ok coreP) w
          (Except.error e) md now st).enemy = st.enemy ∧
      (poll_loop_step fid key (Except.ok am) (Except.ok coreP) w
          (Except.error e) md now st).med_deals = st.med_deals ∧
      (poll_loop_step fid key (Except.ok am) (Except.ok coreP) w
          (Except.error e) md now st).last_error = some e ∧
      (poll_loop_step fid key (Except.ok am) (Except.ok coreP) w
          (Except.error e) md now st).updated_at = some now) := by
  have hcfg : ¬(fid = "" ∨ key = "") := by
    intro h; rcases h with h | h
    · exact hfid h
    · exact hkey h
  constructor
  · simp [poll_loop_step, poll_once, hcfg]
  · intro herr hop
    refine ⟨?_, ?_, ?_, ?_⟩ <;>
      simp [poll_loop_step, poll_once, hcfg, herr, hop]

/-- Witness for C6's amended theorem: faction `1001`, a core payload
with no error field, an opponent ID present, enemy fetch failing. -/
theorem poll_error_handling_amended_witness :
    (poll_loop_step "1001" "key" (Except.ok []) (Except.error "boom")
        warWithOpponent (Except.error "boom") [] 7 initialState
      = { initialState with
            last_error := some "boom"
            updated_at := some 7 }) ∧
    ((poll_loop_step "1001" "key" (Except.ok [])
        (Except.ok (Py.dict [])) warWithOpponent (Except.error "boom")
        [] 7 initialState).enemy = initialState.enemy ∧
      (poll_loop_step "1001" "key" (Except.ok [])
        (Except.ok (Py.dict [])) warWithOpponent (Except.error "boom")
        [] 7 initialState).med_deals = initialState.med_deals ∧
      (poll_loop_step "1001" "key" (Except.ok [])
        (Except.ok (Py.dict [])) warWithOpponent (Except.error "boom")
        [] 7 initialState).last_error = some "boom" ∧
      (poll_loop_step "1001" "key" (Except.ok [])
        (Except.ok (Py.dict [])) warWithOpponent (Except.error "boom")
        [] 7 initialState).updated_at = some 7) := by
  obtain ⟨a, b⟩ := poll_error_handling_amended "1001" "key" []
    (Py.dict []) warWithOpponent "boom" [] 7 initialState
    (by decide) (by decide)
  exact ⟨a, b (by decide) (by decide)⟩
